import Mathlib

/-!
Shallow embedding of the `UserTable` React component (src/src/App.tsx).

The component fetches a list of user records, derives a filtered list from a
search term, shows a fixed-size page window over the filtered list, and keeps
a selection set of user ids.  Every definition below is translated directly
from the TypeScript source; theorems at the end settle the spec's claims.
-/

/-- The `LoginInfo` interface of the source. -/
structure LoginInfo where
  uuid : String
  username : String
  password : String
  md5 : String
  sha1 : String
  registered : String
deriving DecidableEq

/-- The `GeoLocation` interface of the source. -/
structure GeoLocation where
  lat : String
  lng : String
deriving DecidableEq

/-- The `Address` interface of the source. -/
structure Address where
  street : String
  suite : String
  city : String
  zipcode : String
  geo : GeoLocation
deriving DecidableEq

/-- The `Company` interface of the source. -/
structure Company where
  name : String
  catchPhrase : String
  bs : String
deriving DecidableEq

/-- The `User` interface of the source. -/
structure User where
  id : Nat
  firstname : String
  lastname : String
  email : String
  birthDate : String
  login : LoginInfo
  address : Address
  phone : String
  website : String
  company : Company
deriving DecidableEq

/-- JavaScript `needle ⊆ hay` substring test (`hay.includes(needle)`), on
character lists: the needle is a prefix of some suffix of the haystack. -/
def includesList (needle : List Char) : List Char → Bool
  | [] => needle.isPrefixOf []
  | c :: t => needle.isPrefixOf (c :: t) || includesList needle t

/-- JavaScript `hay.includes(needle)` on strings. -/
def includesStr (hay needle : String) : Bool :=
  includesList needle.toList hay.toList

/-- JavaScript `s.toLowerCase()` (character-wise lowering). -/
def toLowerCase (s : String) : String :=
  String.mk (s.data.map Char.toLower)

/-- The filter predicate of the filter `useEffect` (source lines 117-125):
case-insensitive substring match of the term against first name, last name,
email and username, combined with logical OR. -/
def userMatches (searchTerm : String) (u : User) : Bool :=
  let searchLower := toLowerCase searchTerm
  includesStr (toLowerCase u.firstname) searchLower ||
  includesStr (toLowerCase u.lastname) searchLower ||
  includesStr (toLowerCase u.email) searchLower ||
  includesStr (toLowerCase u.login.username) searchLower

/-- `users.filter(...)` of the filter `useEffect`. -/
def filterUsers (users : List User) (searchTerm : String) : List User :=
  users.filter (userMatches searchTerm)

/-- The component's state hooks (source lines 66-72).  `currentPage` is
1-based; `error = none` plays the role of the `null` error state. -/
structure TableState where
  users : List User
  filteredUsers : List User
  selectedUsers : List Nat
  searchTerm : String
  currentPage : Nat
  loading : Bool
  error : Option String
deriving DecidableEq

/-- `useState` initial values (source lines 66-72). -/
def initialState : TableState :=
  ⟨[], [], [], "", 1, true, none⟩

/-- The filter `useEffect` body (source lines 114-128): when the base list is
empty it returns early; otherwise it recomputes the filtered list from the
current search term and resets `currentPage` to 1. -/
def applySearchEffect (s : TableState) : TableState :=
  if s.users.length = 0 then s
  else { s with filteredUsers := filterUsers s.users s.searchTerm,
                currentPage := 1 }

/-- The search input's `onChange` handler (`setSearchTerm`, source line 203)
followed by the filter `useEffect` it triggers. -/
def setSearchTerm (s : TableState) (term : String) : TableState :=
  applySearchEffect { s with searchTerm := term }

/-- Derived page window (source lines 131-133):
`filteredUsers.slice(indexOfFirstUser, indexOfLastUser)` with
`indexOfLastUser = currentPage * usersPerPage` and
`indexOfFirstUser = indexOfLastUser - usersPerPage`, `usersPerPage = 5`. -/
def currentUsersOf (filteredUsers : List User) (currentPage : Nat) : List User :=
  let indexOfLastUser := currentPage * 5
  let indexOfFirstUser := indexOfLastUser - 5
  (filteredUsers.drop indexOfFirstUser).take (indexOfLastUser - indexOfFirstUser)

/-- `totalPages = Math.ceil(filteredUsers.length / usersPerPage)` (source
line 134), as exact natural-number ceiling division by 5. -/
def totalPagesOf (filteredUsers : List User) : Nat :=
  (filteredUsers.length + 4) / 5

/-- `handleSelectUser` (source lines 137-143): remove the id when present
(`includes`), append it otherwise. -/
def handleSelectUser (selectedUsers : List Nat) (userId : Nat) : List Nat :=
  if selectedUsers.contains userId then
    selectedUsers.filter (fun id => id != userId)
  else
    selectedUsers ++ [userId]

/-- JavaScript `[...new Set(l)]`: keeps the first occurrence of every
element, in order. -/
def jsSetDedup : List Nat → List Nat
  | [] => []
  | a :: t => a :: jsSetDedup (t.filter (fun x => x != a))
termination_by l => l.length
decreasing_by
  simp only [List.length_cons]
  exact Nat.lt_succ_of_le (List.length_filter_le _ _)

/-- `handleSelectAll` (source lines 146-155), with the current page's id list
passed explicitly: when checked, `[...new Set([...selectedUsers,
...allCurrentIds])]`; when unchecked,
`selectedUsers.filter((id) => !currentIds.includes(id))`. -/
def handleSelectAll (selectedUsers currentIds : List Nat) (checked : Bool) :
    List Nat :=
  if checked then
    jsSetDedup (selectedUsers ++ currentIds)
  else
    selectedUsers.filter (fun id => !currentIds.contains id)

/-- `isAllSelected` (source lines 158-159). -/
def isAllSelected (currentUsers : List User) (selectedUsers : List Nat) : Bool :=
  decide (currentUsers.length > 0) &&
    currentUsers.all (fun u => selectedUsers.contains u.id)

/-- The body of a resolved fetch response after `response.json()`:
either a JSON array of users or something that is not an array. -/
inductive ResponseBody where
  | jsonArray (data : List User)
  | notAnArray
deriving DecidableEq

/-- A resolved HTTP response: its status code and parsed body. -/
structure HttpResponse where
  status : Nat
  body : ResponseBody
deriving DecidableEq

/-- JavaScript `Response.ok`: status in the inclusive range 200-299. -/
def HttpResponse.ok (r : HttpResponse) : Bool :=
  200 ≤ r.status && r.status ≤ 299

/-- Outcome of the `fetch` call: resolved with a response, or rejected
(network failure) with the rejection's error message. -/
inductive FetchResult where
  | resolved (response : HttpResponse)
  | rejected (message : String)
deriving DecidableEq

/-- The `try` block of `fetchUsers` (source lines 86-100) as a pure function
of the fetch's outcome: a non-ok response throws
`HTTP error! status: <status>`; a body that is not a non-empty array throws
`Invalid data format received from API`; otherwise the data is accepted. -/
def fetchOutcome (result : FetchResult) : Except String (List User) :=
  match result with
  | .rejected message => .error message
  | .resolved response =>
    if !response.ok then
      .error ("HTTP error! status: " ++ toString response.status)
    else
      match response.body with
      | .jsonArray data =>
        if data.length > 0 then .ok data
        else .error "Invalid data format received from API"
      | .notAnArray => .error "Invalid data format received from API"

/-- `fetchUsers` (source lines 77-108) applied to a state: on success the
data becomes the base and filtered list and the error is cleared; on failure
the error message is stored; `finally` ends the loading state. -/
def applyFetch (s : TableState) (result : FetchResult) : TableState :=
  match fetchOutcome result with
  | .ok data =>
    { s with users := data, filteredUsers := data,
             error := none, loading := false }
  | .error message =>
    { s with error := some message, loading := false }

/-- The three top-level views of the component (source lines 161-192):
loading spinner, full-screen error, or the ready table. -/
inductive View where
  | loadingView
  | errorView (message : String)
  | readyView
deriving DecidableEq

/-- The early returns of the render body: `if (loading) ...` then
`if (error) ...`, else the table. -/
def render (s : TableState) : View :=
  if s.loading then .loadingView
  else
    match s.error with
    | some message => .errorView message
    | none => .readyView

/-- The Previous button's `onClick` (source line 287):
`setCurrentPage((prev) => Math.max(prev - 1, 1))`. -/
def clickPrevious (currentPage : Nat) : Nat :=
  max (currentPage - 1) 1

/-- The Next button's `onClick` (source line 297):
`setCurrentPage((prev) => Math.min(prev + 1, totalPages))`. -/
def clickNext (currentPage totalPages : Nat) : Nat :=
  min (currentPage + 1) totalPages

/-- `disabled={currentPage === 1}` on the Previous button (source line 288). -/
def previousDisabled (currentPage : Nat) : Bool :=
  currentPage == 1

/-- `disabled={currentPage === totalPages}` on the Next button (source
line 298). -/
def nextDisabled (currentPage totalPages : Nat) : Bool :=
  currentPage == totalPages

/-- The render guard of the pagination controls (source line 280):
`filteredUsers.length > 0 && (...)`. -/
def paginationRendered (filteredUsers : List User) : Bool :=
  decide (filteredUsers.length > 0)

/-- A concrete user record for witnesses. -/
def sampleUser : User :=
  ⟨1, "Leanne", "Graham", "leanne.graham@example.com", "1990-01-01",
    ⟨"u-1", "bret", "pw", "md5", "sha1", "2020-01-01"⟩,
    ⟨"Main St", "Apt 1", "Gwenborough", "92998", ⟨"-37.3", "81.1"⟩⟩,
    "1-770-736-8031", "hildegard.org", ⟨"Romaguera", "Multi-layered", "nets"⟩⟩

/-! ### Helper lemmas -/

/-- `includesList` decides the list-infix relation. -/
theorem includesList_iff (needle hay : List Char) :
    includesList needle hay = true ↔ needle <:+: hay := by
  induction hay with
  | nil =>
    simp [includesList, List.infix_nil]
  | cons c t ih =>
    simp only [includesList, Bool.or_eq_true, List.isPrefixOf_iff_prefix, ih,
      List.infix_cons_iff]

/-- The empty needle is a substring of everything. -/
theorem includesList_nil (hay : List Char) : includesList [] hay = true :=
  (includesList_iff [] hay).mpr List.nil_infix

/-- The empty search term matches every record. -/
theorem userMatches_empty (u : User) : userMatches "" u = true := by
  have h : toLowerCase "" = "" := by decide
  simp only [userMatches, h, includesStr, Bool.or_eq_true]
  exact Or.inl (Or.inl (Or.inl (includesList_nil _)))

/-- `jsSetDedup` preserves membership. -/
theorem mem_jsSetDedup (x : Nat) (l : List Nat) :
    x ∈ jsSetDedup l ↔ x ∈ l := by
  induction l using jsSetDedup.induct with
  | case1 => simp [jsSetDedup]
  | case2 a t ih =>
    simp only [jsSetDedup, List.mem_cons, ih, List.mem_filter, bne_iff_ne, ne_eq,
      decide_eq_true_eq]
    constructor
    · rintro (rfl | ⟨hx, _⟩)
      · exact Or.inl rfl
      · exact Or.inr hx
    · rintro (rfl | hx)
      · exact Or.inl rfl
      · by_cases hxa : x = a
        · exact Or.inl hxa
        · exact Or.inr ⟨hx, hxa⟩

/-- `jsSetDedup` never produces duplicates. -/
theorem nodup_jsSetDedup (l : List Nat) : (jsSetDedup l).Nodup := by
  induction l using jsSetDedup.induct with
  | case1 => simp [jsSetDedup]
  | case2 a t ih =>
    simp only [jsSetDedup, List.nodup_cons]
    refine ⟨fun hmem => ?_, ih⟩
    have := (mem_jsSetDedup a _).mp hmem
    simp [List.mem_filter] at this

/-- A concrete component state for witnesses: one fetched user, page 3. -/
def sampleState : TableState :=
  ⟨[sampleUser], [sampleUser], [], "", 3, false, none⟩

/-! ### Claims -/

/-- Claim C1: for every base list and search term the filtered list contains
exactly the records for which the lowercased term is a substring of the
lowercased first name, last name, email, or username (logical OR, which is
what `userMatches` computes); it is a sublist of the base list (so base-list
order is preserved and the filtered list is a subset of the base list); and
the empty term matches every record, so filtering by it returns the base
list unchanged. -/
theorem filterUsers_exact_membership (users : List User) (searchTerm : String) :
    (∀ u : User, u ∈ filterUsers users searchTerm ↔
        u ∈ users ∧ userMatches searchTerm u = true)
    ∧ (filterUsers users searchTerm).Sublist users
    ∧ filterUsers users searchTerm ⊆ users
    ∧ (∀ u : User, userMatches "" u = true)
    ∧ filterUsers users "" = users := by
  refine ⟨fun u => List.mem_filter, List.filter_sublist users,
    (List.filter_sublist users).subset, userMatches_empty, ?_⟩
  exact List.filter_eq_self.mpr fun u _ => userMatches_empty u

/-- Claim C2: whenever the base list is non-empty (so the filter effect does
not take its early return), changing the search term recomputes the filtered
list and resets `currentPage` to 1. -/
theorem setSearchTerm_resets_page (s : TableState) (term : String)
    (h : s.users ≠ []) :
    (setSearchTerm s term).currentPage = 1
    ∧ (setSearchTerm s term).filteredUsers = filterUsers s.users term
    ∧ (setSearchTerm s term).searchTerm = term := by
  simp only [setSearchTerm, applySearchEffect]
  rw [if_neg]
  · exact ⟨rfl, rfl, rfl⟩
  · simpa [List.length_eq_zero] using h

/-- Witness for C2 at a concrete state: one user, page 3, new term "gra". -/
theorem setSearchTerm_resets_page_witness :
    (setSearchTerm sampleState "gra").currentPage = 1
    ∧ (setSearchTerm sampleState "gra").filteredUsers
        = filterUsers sampleState.users "gra"
    ∧ (setSearchTerm sampleState "gra").searchTerm = "gra" :=
  setSearchTerm_resets_page sampleState "gra" (by decide)

/-- Claim C6: `handleSelectUser` (toggle) appends the id when absent and
removes it when present, keeps the selection duplicate-free, and applied
twice returns the selection set to its prior state (equal as a set of ids:
same membership, and a permutation of the original list). -/
theorem handleSelectUser_toggle (selectedUsers : List Nat) (userId : Nat)
    (hnd : selectedUsers.Nodup) :
    (userId ∉ selectedUsers →
        handleSelectUser selectedUsers userId = selectedUsers ++ [userId])
    ∧ (userId ∈ selectedUsers → userId ∉ handleSelectUser selectedUsers userId)
    ∧ (userId ∉ selectedUsers → userId ∈ handleSelectUser selectedUsers userId)
    ∧ (handleSelectUser selectedUsers userId).Nodup
    ∧ (∀ x, x ∈ handleSelectUser (handleSelectUser selectedUsers userId) userId
        ↔ x ∈ selectedUsers)
    ∧ (handleSelectUser (handleSelectUser selectedUsers userId) userId).Perm
        selectedUsers := by
  by_cases hmem : userId ∈ selectedUsers
  · have h1 : handleSelectUser selectedUsers userId
        = selectedUsers.filter (fun id => id != userId) := by
      simp [handleSelectUser, hmem]
    have hni : userId ∉ selectedUsers.filter (fun id => id != userId) := by
      simp [List.mem_filter]
    have h2 : handleSelectUser (handleSelectUser selectedUsers userId) userId
        = selectedUsers.filter (fun id => id != userId) ++ [userId] := by
      rw [h1]
      simp [handleSelectUser, hni]
    refine ⟨fun hno => absurd hmem hno, fun _ => h1 ▸ hni,
      fun hno => absurd hmem hno, h1 ▸ hnd.filter _, ?_, ?_⟩
    · intro x
      rw [h2]
      simp only [List.mem_append, List.mem_filter, List.mem_singleton,
        bne_iff_ne, ne_eq, decide_eq_true_eq]
      constructor
      · rintro (⟨hx, _⟩ | rfl) <;> [exact hx; exact hmem]
      · intro hx
        by_cases hxu : x = userId
        · exact Or.inr hxu
        · exact Or.inl ⟨hx, hxu⟩
    · rw [h2, ← hnd.erase_eq_filter]
      have hp : (selectedUsers.erase userId ++ [userId]).Perm
          ([userId] ++ selectedUsers.erase userId) := List.perm_append_comm
      exact hp.trans (List.perm_cons_erase hmem).symm
  · have h1 : handleSelectUser selectedUsers userId
        = selectedUsers ++ [userId] := by
      simp [handleSelectUser, hmem]
    have hmem2 : userId ∈ selectedUsers ++ [userId] := by simp
    have h2 : handleSelectUser (handleSelectUser selectedUsers userId) userId
        = (selectedUsers ++ [userId]).filter (fun id => id != userId) := by
      rw [h1]
      simp [handleSelectUser]
    have h3 : (selectedUsers ++ [userId]).filter (fun id => id != userId)
        = selectedUsers := by
      rw [List.filter_append]
      have : selectedUsers.filter (fun id => id != userId) = selectedUsers :=
        List.filter_eq_self.mpr fun x hx => by
          simp only [bne_iff_ne, ne_eq, decide_eq_true_eq]
          exact fun e => hmem (e ▸ hx)
      simp [this]
    refine ⟨fun _ => h1, fun hin => absurd hin hmem, fun _ => h1 ▸ hmem2, ?_,
      fun x => by rw [h2, h3], by rw [h2, h3]⟩
    rw [h1, List.nodup_append]
    exact ⟨hnd, List.nodup_singleton _, by simpa using hmem⟩

/-- Witness for C6: toggling id 2 on the selection `[1, 2, 3]`. -/
theorem handleSelectUser_toggle_witness :
    ((2 : Nat) ∉ ([1, 2, 3] : List Nat) →
        handleSelectUser [1, 2, 3] 2 = [1, 2, 3] ++ [2])
    ∧ ((2 : Nat) ∈ ([1, 2, 3] : List Nat) → 2 ∉ handleSelectUser [1, 2, 3] 2)
    ∧ ((2 : Nat) ∉ ([1, 2, 3] : List Nat) → 2 ∈ handleSelectUser [1, 2, 3] 2)
    ∧ (handleSelectUser [1, 2, 3] 2).Nodup
    ∧ (∀ x, x ∈ handleSelectUser (handleSelectUser [1, 2, 3] 2) 2
        ↔ x ∈ ([1, 2, 3] : List Nat))
    ∧ (handleSelectUser (handleSelectUser [1, 2, 3] 2) 2).Perm [1, 2, 3] :=
  handleSelectUser_toggle [1, 2, 3] 2 (by decide)

/-- Claim C7: `handleSelectAll` with `checked = true` yields the
deduplicated union of the selection with the current page's ids, and with
`checked = false` removes exactly the current page's ids, leaving every
selected id not on the current page in the selection. -/
theorem handleSelectAll_union_and_remove (selectedUsers currentIds : List Nat) :
    (∀ x, x ∈ handleSelectAll selectedUsers currentIds true
        ↔ x ∈ selectedUsers ∨ x ∈ currentIds)
    ∧ (handleSelectAll selectedUsers currentIds true).Nodup
    ∧ (∀ x, x ∈ handleSelectAll selectedUsers currentIds false
        ↔ x ∈ selectedUsers ∧ x ∉ currentIds) := by
  refine ⟨fun x => ?_, ?_, fun x => ?_⟩
  · simp [handleSelectAll, mem_jsSetDedup]
  · simpa [handleSelectAll] using nodup_jsSetDedup _
  · simp [handleSelectAll, List.mem_filter]

/-- Deduplicating `S ++ t` when `S` has no duplicates keeps `S` intact and
deduplicates the part of `t` not already in `S`. -/
theorem jsSetDedup_append (S t : List Nat) (h : S.Nodup) :
    jsSetDedup (S ++ t)
      = S ++ jsSetDedup (t.filter (fun x => !S.contains x)) := by
  induction S generalizing t with
  | nil => simp
  | cons a S ih =>
    rcases List.nodup_cons.mp h with ⟨ha, hS⟩
    rw [List.cons_append, jsSetDedup, List.filter_append]
    have hSf : S.filter (fun x => x != a) = S :=
      List.filter_eq_self.mpr fun x hx => by
        simp only [bne_iff_ne, ne_eq, decide_eq_true_eq]
        exact fun e => ha (e ▸ hx)
    rw [hSf, ih _ hS, List.cons_append]
    congr 2
    rw [List.filter_filter]
    congr 1
    apply List.filter_congr
    intro x _
    simp only [List.contains_cons, Bool.not_or]
    rw [Bool.and_comm]
    rfl

/-- Checking then unchecking the page checkbox amounts to filtering the
page's ids out of the original (duplicate-free) selection. -/
theorem handleSelectAll_roundtrip_eq (selectedUsers currentIds : List Nat)
    (h : selectedUsers.Nodup) :
    handleSelectAll (handleSelectAll selectedUsers currentIds true)
        currentIds false
      = selectedUsers.filter (fun id => !currentIds.contains id) := by
  show (jsSetDedup (selectedUsers ++ currentIds)).filter
      (fun id => !currentIds.contains id)
    = selectedUsers.filter (fun id => !currentIds.contains id)
  rw [jsSetDedup_append _ _ h, List.filter_append]
  have h2 : (jsSetDedup (currentIds.filter
        (fun x => !selectedUsers.contains x))).filter
      (fun id => !currentIds.contains id) = [] := by
    rw [List.filter_eq_nil_iff]
    intro x hx
    have hmem : x ∈ currentIds :=
      (List.mem_filter.mp ((mem_jsSetDedup x _).mp hx)).1
    simp [hmem]
  rw [h2, List.append_nil]

/-- Counterexample to claim C3 as stated: with prior selection `[1]` and the
current page holding exactly the user with id 1, checking then unchecking
the select-all box does not restore the selection — id 1 is on the current
page and was selected before, yet it ends up deselected. -/
theorem selectAll_pair_counterexample :
    ((1 : Nat) ∈ ([1] : List Nat))
    ∧ (1 : Nat) ∈ (currentUsersOf [sampleUser] 1).map User.id
    ∧ handleSelectAll (handleSelectAll [1]
          ((currentUsersOf [sampleUser] 1).map User.id) true)
        ((currentUsersOf [sampleUser] 1).map User.id) false ≠ [1] := by
  have hids : (currentUsersOf [sampleUser] 1).map User.id = [1] := by decide
  have hcomp : handleSelectAll (handleSelectAll [1] [1] true) [1] false = [] := by
    simp [handleSelectAll, jsSetDedup]
  refine ⟨by decide, by rw [hids]; decide, ?_⟩
  rw [hids, hcomp]
  decide

/-- Claim C3 (amended): `selectAllOnPage(true)` followed by
`selectAllOnPage(false)` with the same page ids does not in general restore
the prior selection; the round trip equals removing the current page's ids
from the prior selection (so every off-page id keeps its prior membership,
while every on-page id ends up deselected), and the prior selection is
restored exactly when it contains no id of the current page. -/
theorem selectAll_pair_removes_page (selectedUsers currentIds : List Nat)
    (h : selectedUsers.Nodup) :
    handleSelectAll (handleSelectAll selectedUsers currentIds true)
        currentIds false
      = handleSelectAll selectedUsers currentIds false
    ∧ (∀ x, x ∈ handleSelectAll (handleSelectAll selectedUsers currentIds true)
          currentIds false ↔ x ∈ selectedUsers ∧ x ∉ currentIds)
    ∧ ((∀ x ∈ selectedUsers, x ∉ currentIds) →
        handleSelectAll (handleSelectAll selectedUsers currentIds true)
            currentIds false = selectedUsers) := by
  have hr := handleSelectAll_roundtrip_eq selectedUsers currentIds h
  refine ⟨?_, fun x => ?_, fun hdisj => ?_⟩
  · rw [hr]
    simp [handleSelectAll]
  · rw [hr]
    simp [List.mem_filter]
  · rw [hr]
    apply List.filter_eq_self.mpr
    intro x hx
    simp [hdisj x hx]

/-- Witness for the amended C3: prior selection `[7, 1]`, current page ids
`[1, 2]`; the round trip leaves `[7]`. -/
theorem selectAll_pair_removes_page_witness :
    handleSelectAll (handleSelectAll [7, 1] [1, 2] true) [1, 2] false
      = handleSelectAll [7, 1] [1, 2] false
    ∧ (∀ x, x ∈ handleSelectAll (handleSelectAll [7, 1] [1, 2] true) [1, 2] false
        ↔ x ∈ ([7, 1] : List Nat) ∧ x ∉ ([1, 2] : List Nat))
    ∧ ((∀ x ∈ ([7, 1] : List Nat), x ∉ ([1, 2] : List Nat)) →
        handleSelectAll (handleSelectAll [7, 1] [1, 2] true) [1, 2] false
          = [7, 1]) :=
  selectAll_pair_removes_page [7, 1] [1, 2] (by decide)

/-- Claim C4: a fetch that resolves with an OK response whose body is not an
array, or is an empty array, puts the component in the Error state carrying
the fixed message `Invalid data format received from API`; the base and
filtered lists are left untouched. -/
theorem fetch_invalid_data (s : TableState) (response : HttpResponse)
    (hok : response.ok = true)
    (hbody : response.body = .notAnArray ∨ response.body = .jsonArray []) :
    (applyFetch s (.resolved response)).error
        = some "Invalid data format received from API"
    ∧ render (applyFetch s (.resolved response))
        = .errorView "Invalid data format received from API"
    ∧ (applyFetch s (.resolved response)).users = s.users
    ∧ (applyFetch s (.resolved response)).filteredUsers = s.filteredUsers := by
  have houtcome : fetchOutcome (.resolved response)
      = .error "Invalid data format received from API" := by
    rcases hbody with hb | hb <;> simp [fetchOutcome, hok, hb]
  refine ⟨?_, ?_, ?_, ?_⟩ <;> simp [applyFetch, houtcome, render]

/-- Witness for C4: a 200 response with the empty array body, from the
initial state. -/
theorem fetch_invalid_data_witness :
    (applyFetch initialState (.resolved ⟨200, .jsonArray []⟩)).error
        = some "Invalid data format received from API"
    ∧ render (applyFetch initialState (.resolved ⟨200, .jsonArray []⟩))
        = .errorView "Invalid data format received from API"
    ∧ (applyFetch initialState (.resolved ⟨200, .jsonArray []⟩)).users
        = initialState.users
    ∧ (applyFetch initialState (.resolved ⟨200, .jsonArray []⟩)).filteredUsers
        = initialState.filteredUsers :=
  fetch_invalid_data initialState ⟨200, .jsonArray []⟩ (by decide) (Or.inr rfl)

/-- Claim C9: a fetch that resolves with a non-2xx response puts the
component in the Error state, and the stored message contains the HTTP
status code as a substring (by the code's own `includes` test). -/
theorem fetch_http_error (s : TableState) (response : HttpResponse)
    (hok : response.ok = false) :
    (applyFetch s (.resolved response)).error
        = some ("HTTP error! status: " ++ toString response.status)
    ∧ includesStr ("HTTP error! status: " ++ toString response.status)
        (toString response.status) = true
    ∧ render (applyFetch s (.resolved response))
        = .errorView ("HTTP error! status: " ++ toString response.status) := by
  have houtcome : fetchOutcome (.resolved response)
      = .error ("HTTP error! status: " ++ toString response.status) := by
    simp [fetchOutcome, hok]
  refine ⟨by simp [applyFetch, houtcome], ?_,
    by simp [applyFetch, houtcome, render]⟩
  apply (includesList_iff _ _).mpr
  have hsplit : ("HTTP error! status: " ++ toString response.status).toList
      = "HTTP error! status: ".toList ++ (toString response.status).toList := by
    simp [String.toList, String.data_append]
  rw [hsplit]
  exact (List.suffix_append _ _).isInfix

/-- Witness for C9: an HTTP 500 response — the message contains "500". -/
theorem fetch_http_error_witness :
    (applyFetch initialState (.resolved ⟨500, .notAnArray⟩)).error
        = some ("HTTP error! status: " ++ toString (500 : Nat))
    ∧ includesStr ("HTTP error! status: " ++ toString (500 : Nat))
        (toString (500 : Nat)) = true
    ∧ render (applyFetch initialState (.resolved ⟨500, .notAnArray⟩))
        = .errorView ("HTTP error! status: " ++ toString (500 : Nat)) :=
  fetch_http_error initialState ⟨500, .notAnArray⟩ (by decide)

/-- Claim C5: for a page in `[1, totalPages]` the page window is the slice
`[(currentPage-1)*5, currentPage*5)` clamped to the list's length, its
length never exceeds the page size 5, and on the last page its length is
exactly `filteredCount - 5*(totalPages-1)`. -/
theorem page_window_length (filteredUsers : List User) (currentPage : Nat)
    (h1 : 1 ≤ currentPage) (h2 : currentPage ≤ totalPagesOf filteredUsers) :
    currentUsersOf filteredUsers currentPage
      = (filteredUsers.drop ((currentPage - 1) * 5)).take 5
    ∧ (currentUsersOf filteredUsers currentPage).length ≤ 5
    ∧ (currentPage = totalPagesOf filteredUsers →
        (currentUsersOf filteredUsers currentPage).length
          = filteredUsers.length - 5 * (totalPagesOf filteredUsers - 1)) := by
  have e2 : currentPage * 5 - (currentPage * 5 - 5) = 5 := by omega
  have e1 : currentPage * 5 - 5 = (currentPage - 1) * 5 := by omega
  have hslice : currentUsersOf filteredUsers currentPage
      = (filteredUsers.drop ((currentPage - 1) * 5)).take 5 := by
    simp only [currentUsersOf]
    rw [e2, e1]
  have hlen : (currentUsersOf filteredUsers currentPage).length
      = min 5 (filteredUsers.length - (currentPage - 1) * 5) := by
    rw [hslice]
    simp [List.length_take, List.length_drop]
  have htp : totalPagesOf filteredUsers = (filteredUsers.length + 4) / 5 := rfl
  refine ⟨hslice, ?_, fun heq => ?_⟩
  · rw [hlen]
    omega
  · rw [hlen]
    rw [htp] at heq h2
    omega

/-- Witness for C5: seven records, page size 5, so two pages; page 2 is the
last page and holds exactly 2 records. -/
theorem page_window_length_witness :
    currentUsersOf (List.replicate 7 sampleUser) 2
      = ((List.replicate 7 sampleUser).drop ((2 - 1) * 5)).take 5
    ∧ (currentUsersOf (List.replicate 7 sampleUser) 2).length ≤ 5
    ∧ (2 = totalPagesOf (List.replicate 7 sampleUser) →
        (currentUsersOf (List.replicate 7 sampleUser) 2).length
          = (List.replicate 7 sampleUser).length
              - 5 * (totalPagesOf (List.replicate 7 sampleUser) - 1)) :=
  page_window_length (List.replicate 7 sampleUser) 2 (by decide) (by decide)

/-- Claim C8: with `totalPages ≥ 1` and `currentPage` in `[1, totalPages]`,
Previous is a no-op at page 1 and otherwise decrements, Next is a no-op at
the last page and otherwise increments, and both keep `currentPage` within
`[1, totalPages]`. -/
theorem pagination_controls_clamp (currentPage totalPages : Nat)
    (h1 : 1 ≤ totalPages) (h2 : 1 ≤ currentPage)
    (h3 : currentPage ≤ totalPages) :
    (currentPage = 1 → clickPrevious currentPage = currentPage)
    ∧ (1 < currentPage → clickPrevious currentPage = currentPage - 1)
    ∧ (currentPage = totalPages → clickNext currentPage totalPages = currentPage)
    ∧ (currentPage < totalPages →
        clickNext currentPage totalPages = currentPage + 1)
    ∧ 1 ≤ clickPrevious currentPage
    ∧ clickPrevious currentPage ≤ totalPages
    ∧ 1 ≤ clickNext currentPage totalPages
    ∧ clickNext currentPage totalPages ≤ totalPages := by
  unfold clickPrevious clickNext
  omega

/-- Witness for C8 at page 2 of 3. -/
theorem pagination_controls_clamp_witness :
    ((2 : Nat) = 1 → clickPrevious 2 = 2)
    ∧ ((1 : Nat) < 2 → clickPrevious 2 = 2 - 1)
    ∧ ((2 : Nat) = 3 → clickNext 2 3 = 2)
    ∧ ((2 : Nat) < 3 → clickNext 2 3 = 2 + 1)
    ∧ 1 ≤ clickPrevious 2
    ∧ clickPrevious 2 ≤ 3
    ∧ 1 ≤ clickNext 2 3
    ∧ clickNext 2 3 ≤ 3 :=
  pagination_controls_clamp 2 3 (by decide) (by decide) (by decide)

/-- Claim C10: Next always sets the page to `min(currentPage + 1,
totalPages)`; with an empty filtered list `totalPages = 0`, so from page 1 it
would set the page to 0, below the lower bound of 1 — but the pagination
controls are not rendered when the filtered list is empty. -/
theorem next_on_empty_filtered :
    (∀ currentPage totalPages : Nat,
        clickNext currentPage totalPages = min (currentPage + 1) totalPages)
    ∧ totalPagesOf [] = 0
    ∧ clickNext 1 (totalPagesOf []) = 0
    ∧ clickNext 1 (totalPagesOf []) < 1
    ∧ paginationRendered [] = false := by
  exact ⟨fun p t => rfl, rfl, by decide, by decide, by decide⟩
